import Mathlib

/-!
Shallow embedding of `src/app.py` (Flask mass-mail tool): credential-file
writer, HTML-to-plain-text conversion, column-mapping endpoint, and the
per-recipient dispatch loop of the send endpoint, together with theorems
settling the specification claims about them.

Python strings are modelled as Lean `String` values, manipulated through
their underlying `List Char`; machine-level concerns (encodings, floats)
do not arise in the modelled fragment.  Whitespace predicates model the
ASCII part of Python's notion of whitespace, which is the only part the
inputs in this development exercise.
-/

/-- The ASCII whitespace characters recognised by Python's `str.strip`,
`str.splitlines` terminators aside. -/
def isPySpace (c : Char) : Bool :=
  c == ' ' || c == '\t' || c == '\n' || c == '\x0d' || c == '\x0b' || c == '\x0c'

/-- `str.strip()` on the character list: drop whitespace at both ends. -/
def pyStripL (cs : List Char) : List Char :=
  ((cs.dropWhile isPySpace).reverse.dropWhile isPySpace).reverse

/-- Python `s.strip()`. -/
def pyStrip (s : String) : String := ⟨pyStripL s.data⟩

/-- `leadsWith pat l` is true when `pat` occurs at the head of `l`. -/
def leadsWith : List Char → List Char → Bool
  | [], _ => true
  | _ :: _, [] => false
  | p :: ps, c :: cs => p == c && leadsWith ps cs

/-- `c in s` for a single character, as Python membership on a string. -/
def hasChar (s : String) (c : Char) : Bool := s.data.any (fun x => x == c)

/-- Python `a or b` on strings: the empty string is falsy. -/
def pyOr (a b : String) : String := if a = "" then b else a

/-- One fuel-indexed pass of Python `str.replace(pat, rep)`: scan left to
right, replacing non-overlapping occurrences.  Fuel equal to the input
length is always sufficient because a match consumes at least one
character (the code only calls it with non-empty patterns). -/
def replaceGo (pat rep : List Char) : Nat → List Char → List Char
  | _, [] => []
  | 0, l => l
  | fuel + 1, c :: rest =>
    if pat ≠ [] ∧ leadsWith pat (c :: rest) then
      rep ++ replaceGo pat rep fuel ((c :: rest).drop pat.length)
    else
      c :: replaceGo pat rep fuel rest

/-- Python `str.replace(pat, rep)` restricted to non-empty `pat`. -/
def replaceList (pat rep l : List Char) : List Char :=
  replaceGo pat rep l.length l

/-- Attempt to match the regex `</p\s*>` (IGNORECASE) at the head of the
list; on success return the remainder after the match. -/
def matchPClose (l : List Char) : Option (List Char) :=
  match l with
  | a :: b :: c :: rest =>
    if a = '<' ∧ b = '/' ∧ (c = 'p' ∨ c = 'P') then
      match rest.dropWhile isPySpace with
      | d :: r => if d = '>' then some r else none
      | [] => none
    else none
  | _ => none

/-- `re.sub(r'</p\s*>', '\n\n', text, flags=re.IGNORECASE)`: leftmost,
non-overlapping replacement of paragraph closers by a blank line. -/
def subPCloseGo : Nat → List Char → List Char
  | _, [] => []
  | 0, l => l
  | fuel + 1, c :: rest =>
    match matchPClose (c :: rest) with
    | some r => '\n' :: '\n' :: subPCloseGo fuel r
    | none => c :: subPCloseGo fuel rest

def subPClose (l : List Char) : List Char := subPCloseGo l.length l

/-- Attempt to match the regex `<[^>]+>` at the head of the list: a `<`,
one or more non-`>` characters, then `>`.  Returns the remainder. -/
def matchTag (l : List Char) : Option (List Char) :=
  match l with
  | a :: rest =>
    if a = '<' then
      match rest.dropWhile (fun c => !(c == '>')) with
      | d :: r =>
        if d = '>' ∧ rest.takeWhile (fun c => !(c == '>')) ≠ [] then some r else none
      | [] => none
    else none
  | [] => none

/-- `re.sub(r'<[^>]+>', '', text)`: delete every remaining tag. -/
def stripTagsGo : Nat → List Char → List Char
  | _, [] => []
  | 0, l => l
  | fuel + 1, c :: rest =>
    match matchTag (c :: rest) with
    | some r => stripTagsGo fuel r
    | none => c :: stripTagsGo fuel rest

def stripTags (l : List Char) : List Char := stripTagsGo l.length l

/-- Model of the standard library's `html.unescape` on the common named
entities; characters outside an entity pass through unchanged. -/
def htmlUnescapeL : List Char → List Char
  | [] => []
  | '&' :: 'a' :: 'm' :: 'p' :: ';' :: rest => '&' :: htmlUnescapeL rest
  | '&' :: 'l' :: 't' :: ';' :: rest => '<' :: htmlUnescapeL rest
  | '&' :: 'g' :: 't' :: ';' :: rest => '>' :: htmlUnescapeL rest
  | '&' :: 'q' :: 'u' :: 'o' :: 't' :: ';' :: rest => '\"' :: htmlUnescapeL rest
  | '&' :: 'n' :: 'b' :: 's' :: 'p' :: ';' :: rest => '\xA0' :: htmlUnescapeL rest
  | c :: rest => c :: htmlUnescapeL rest

/-- The body of `html_to_plain_text` after the emptiness guard, in the
source's order: the three literal `<br>` replacements, the paragraph-close
regex, the generic tag regex, entity unescaping, and a final strip. -/
def htmlToPlainTextL (cs : List Char) : List Char :=
  pyStripL (htmlUnescapeL (stripTags (subPClose
    (replaceList "<br />".data "\n".data
      (replaceList "<br/>".data "\n".data
        (replaceList "<br>".data "\n".data cs))))))

/-- `html_to_plain_text(value)` from `src/app.py`: empty input short
circuits to the empty string, otherwise the conversion pipeline runs. -/
def html_to_plain_text (value : String) : String :=
  if value = "" then "" else ⟨htmlToPlainTextL value.data⟩

/-- Python `str.splitlines` worker over ASCII line terminators: splits at
`\r\n`, `\r`, and `\n`; a trailing terminator produces no empty final
line.  The accumulator holds the current line reversed. -/
def splitlinesGo : List Char → List Char → List (List Char)
  | acc, [] => if acc.isEmpty then [] else [acc.reverse]
  | acc, c :: rest =>
    if c = '\x0d' then
      match rest with
      | d :: rest2 =>
        if d = '\n' then acc.reverse :: splitlinesGo [] rest2
        else acc.reverse :: splitlinesGo [] (d :: rest2)
      | [] => acc.reverse :: splitlinesGo [] []
    else if c = '\n' then
      acc.reverse :: splitlinesGo [] rest
    else
      splitlinesGo (c :: acc) rest

/-- Python `s.splitlines()`. -/
def pySplitlines (s : String) : List String :=
  (splitlinesGo [] s.data).map (fun l => ⟨l⟩)

/-- The sanitisation `v.replace('\n', '').replace('\r', '')` applied to
each credential value before it is persisted. -/
def sanitizeValue (v : String) : String :=
  ⟨v.data.filter (fun c => !(c == '\n') && !(c == '\x0d'))⟩

/-- The formatted line `f"{k}={safe_v}"` written for an updated key. -/
def kvRender (k v : String) : String := ⟨k.data ++ '=' :: (sanitizeValue v).data⟩

/-- The filter `'=' in line and not line.strip().startswith('#')` deciding
which existing lines enter the key-to-line mapping. -/
def isKVLine (line : String) : Bool :=
  hasChar line '=' && !(leadsWith "#".data (pyStrip line).data)

/-- `line.split('=', 1)[0].strip()`: the key of a `KEY=value` line. -/
def lineKey (line : String) : String :=
  pyStrip ⟨line.data.takeWhile (fun c => !(c == '='))⟩

/-- Assignment `mapping[k] = v` on an insertion-ordered association list
with unique keys: overwrite in place when the key exists, else append. -/
def assocUpdate (m : List (String × String)) (k v : String) : List (String × String) :=
  if m.any (fun p => p.1 == k) then
    m.map (fun p => if p.1 = k then (k, v) else p)
  else
    m ++ [(k, v)]

/-- The first loop of `_write_env_values`: fold the existing file's lines
into the key-to-line mapping, keeping only uncommented `=`-lines. -/
def buildMapping : List (String × String) → List String → List (String × String)
  | m, [] => m
  | m, line :: rest =>
    if isKVLine line then buildMapping (assocUpdate m (lineKey line) line) rest
    else buildMapping m rest

/-- The second loop of `_write_env_values`: merge the updates, writing
`k=sanitised-value` lines over or after the existing entries. -/
def applyUpdates : List (String × String) → List (String × String) → List (String × String)
  | m, [] => m
  | m, (k, v) :: rest => applyUpdates (assocUpdate m k (kvRender k v)) rest

/-- `_write_env_values(updates)` from `src/app.py`, observed as the list
of lines it writes back: read the existing file (absent file means no
lines), build the mapping, merge the updates, emit `mapping.values()`.
The file content itself is these lines joined with newlines. -/
def write_env_values (existing : Option String) (updates : List (String × String)) :
    List String :=
  (applyUpdates
    (buildMapping [] (match existing with | none => [] | some s => pySplitlines s))
    updates).map Prod.snd

/-- Digit-string value, most significant digit first. -/
def digitsToNat (ds : List Char) : Nat :=
  ds.foldl (fun acc c => acc * 10 + (c.toNat - '0'.toNat)) 0

/-- Model of Python `int(s)` for string arguments: strip whitespace,
allow one optional sign, then require a non-empty run of decimal digits;
anything else raises `ValueError`, modelled as `none`. -/
def pyInt (s : String) : Option Int :=
  match pyStripL s.data with
  | '+' :: ds =>
    if ds ≠ [] ∧ ds.all (fun c => c.isDigit) then some (Int.ofNat (digitsToNat ds)) else none
  | '-' :: ds =>
    if ds ≠ [] ∧ ds.all (fun c => c.isDigit) then some (-(Int.ofNat (digitsToNat ds))) else none
  | ds =>
    if ds ≠ [] ∧ ds.all (fun c => c.isDigit) then some (Int.ofNat (digitsToNat ds)) else none

/-- A normalised recipient record as built by `map_columns`: trimmed
email and name, and the optional subject column value. -/
structure Rec where
  email : String
  name : String
  subject : Option String
deriving DecidableEq

/-- One entry of the `results` list of `send_emails`: the dictionary
with keys `to`, `status` (`enviado` or `error`) and `detail`. -/
structure DispatchResult where
  to_addr : String
  status : String
  detail : String
deriving DecidableEq

/-- An uploaded attachment as held in the `attachments` list: sanitised
filename and raw content bytes. -/
structure Attach where
  name : String
  bytes : List Nat
deriving DecidableEq

/-- `att.get('name') or 'adjunto.pdf'`. -/
def attachName (a : Attach) : String := pyOr a.name "adjunto.pdf"

/-- Lowercase a string character-wise, as `str.lower()` on ASCII names. -/
def pyLower (s : String) : String := ⟨s.data.map Char.toLower⟩

/-- Drop trailing-extension test `att_name.lower().endswith('.pdf')`. -/
def isPdfName (s : String) : Bool := leadsWith ".fdp".data (pyLower s).data.reverse

/-- The attachment parts included in one outgoing message: entries with
empty bytes are skipped, then only names ending in `.pdf` are kept. -/
def msgAtts (atts : List Attach) : List String :=
  (atts.filter (fun a => !a.bytes.isEmpty && isPdfName (attachName a))).map attachName

/-- `rec.get('subject') or default_subject or 'Comunicado'`: Python `or`
chains on falsiness, so an absent subject and an empty-string subject
both fall through. -/
def chooseSubject (subj : Option String) (default_subject : String) : String :=
  pyOr (pyOr (subj.getD "") default_subject) "Comunicado"

/-- The body text of one message: the rendered template output, with the
signature appended after a blank line when the signature is non-empty. -/
def mkBody (rendered signature_text : String) : String :=
  if signature_text ≠ "" then rendered ++ "\n\n" ++ signature_text else rendered

/-- The observable content of one `server.sendmail` call. -/
structure SentMsg where
  to_addr : String
  subject : String
  body : String
  attNames : List String
deriving DecidableEq

/-- Externally visible actions of the dispatch loop: an SMTP send
attempt, and the `time.sleep(0.5)` inter-send pause. -/
inductive Event where
  | send (m : SentMsg)
  | sleep
deriving DecidableEq

/-- Oracle for the two fallible operations inside the per-recipient
`try` block: `Template(message_template).render(...)` may raise
(`renderFail`), and `server.sendmail(...)` may raise after a successful
render (`sendFail`, carrying the rendered body); `ok` carries the
rendered body of a fully successful iteration.  The stringified
exception text is the oracle's `msg`. -/
inductive Outcome where
  | renderFail (msg : String)
  | sendFail (body msg : String)
  | ok (body : String)
deriving DecidableEq

/-- One iteration of the `for idx, rec in enumerate(records)` loop of
`send_emails`: an empty (after strip) email appends an error result and
continues without touching the SMTP session; otherwise the try block
renders, builds and sends the message, appends the success result and
sleeps, and any exception is caught into an error result for this
recipient only.  Returns the appended result and the emitted events. -/
def dispatchStep (signature_text default_subject : String) (atts : List Attach)
    (rec : Rec) (o : Outcome) : DispatchResult × List Event :=
  if pyStrip rec.email = "" then
    (⟨pyStrip rec.email, "error", "Correo vacío"⟩, [])
  else
    match o with
    | Outcome.renderFail m => (⟨pyStrip rec.email, "error", m⟩, [])
    | Outcome.sendFail b m =>
      (⟨pyStrip rec.email, "error", m⟩,
       [Event.send ⟨pyStrip rec.email, chooseSubject rec.subject default_subject,
          mkBody b signature_text, msgAtts atts⟩])
    | Outcome.ok b =>
      (⟨pyStrip rec.email, "enviado", ""⟩,
       [Event.send ⟨pyStrip rec.email, chooseSubject rec.subject default_subject,
          mkBody b signature_text, msgAtts atts⟩,
        Event.sleep])

/-- The whole dispatch loop from the recipient at index `i` on: one
result is appended per record, in input order, and the event streams
concatenate in order.  The oracle maps each index to that iteration's
outcome. -/
def dispatchLoop (signature_text default_subject : String) (atts : List Attach)
    (oracle : Nat → Outcome) : Nat → List Rec → List DispatchResult × List Event
  | _, [] => ([], [])
  | i, rec :: rest =>
    ((dispatchStep signature_text default_subject atts rec (oracle i)).1 ::
       (dispatchLoop signature_text default_subject atts oracle (i + 1) rest).1,
     (dispatchStep signature_text default_subject atts rec (oracle i)).2 ++
       (dispatchLoop signature_text default_subject atts oracle (i + 1) rest).2)

/-- Index-tagging helper used to state order preservation. -/
def withIdx {α : Type} : Nat → List α → List (Nat × α)
  | _, [] => []
  | i, a :: as => (i, a) :: withIdx (i + 1) as

/-- The prefilled SMTP form defaults computed in `map_columns` via
`_get_env_default`: the persisted/environment value when the variable is
set (even to the empty string), else the hardcoded literal fallback. -/
structure SmtpDefaults where
  smtp_email : String
  smtp_app_password : String
  from_name : String
  smtp_host : String
  smtp_port : String
deriving DecidableEq

/-- `os.environ`, abstracted as a partial map from variable names. -/
def smtpDefaults (env : String → Option String) : SmtpDefaults :=
  ⟨(env "SMTP_EMAIL").getD "",
   (env "SMTP_APP_PASSWORD").getD "dgjr jxdm dske dxos",
   (env "SMTP_FROM_NAME").getD "Centro de Idiomas",
   (env "SMTP_HOST").getD "smtp.gmail.com",
   (env "SMTP_PORT").getD "587"⟩

/-- An environment with no variables set. -/
def envEmpty : String → Option String := fun _ => none

/-- The session state read by `map_columns`: the upload path and the
column list stored by `prepare`, plus the cached template and subject. -/
structure MapSession where
  upload_path : Option String
  columns : List String
  message_template : String
  default_subject : String
deriving DecidableEq

/-- The dataframe produced by re-reading the uploaded file: ordered
column names, and rows as cell maps from column name to string value. -/
structure Frame where
  cols : List String
  rows : List (List (String × String))
deriving DecidableEq

/-- Result of the `pd.read_csv` / `pd.read_excel` call at `map` time:
either the parsed frame, or the stringified exception text. -/
inductive ReadResult where
  | ok (f : Frame)
  | err (msg : String)
deriving DecidableEq

/-- The response of the `map` endpoint: a flash-and-redirect to the
index, or the confirm view; `confirm` carries the records stored into
`session['mapped_records']` and the prefilled SMTP defaults. -/
inductive MapResponse where
  | redirect (flash : String)
  | confirm (records : List Rec) (defaults : SmtpDefaults)
deriving DecidableEq

/-- The per-column test of the `missing` comprehension in `map_columns`:
`not c or c not in df.columns` (absent form field, empty selection, or a
name the re-read frame does not have). -/
def badCol (c : Option String) (cols : List String) : Bool :=
  match c with
  | none => true
  | some s => s == "" || !(cols.contains s)

/-- `str(row[col])` for a cell: look the column up in the row map. -/
def cellGet (row : List (String × String)) (c : String) : String :=
  match row.find? (fun p => p.1 == c) with
  | some p => p.2
  | none => ""

/-- `map_columns` from `src/app.py`.  Expired session or unreadable file
redirect to the index; a failed column validation redirects to the
index without storing `mapped_records`; otherwise the normalised records
are built from the re-read frame (note: validation consults the re-read
frame's columns, not `sess.columns`), stored, and the confirm view is
rendered with the environment-derived SMTP defaults. -/
def map_columns (sess : MapSession) (email_col name_col subject_col : Option String)
    (read : ReadResult) (env : String → Option String) : MapResponse :=
  match sess.upload_path with
  | none => MapResponse.redirect "Sesión expirada. Vuelve a subir el archivo."
  | some _ =>
    match read with
    | ReadResult.err exc => MapResponse.redirect ("No se pudo leer el archivo: " ++ exc)
    | ReadResult.ok f =>
      if badCol email_col f.cols || badCol name_col f.cols then
        MapResponse.redirect "Selecciona correctamente las columnas de correo y nombre."
      else
        MapResponse.confirm
          (f.rows.map (fun row =>
            ⟨pyStrip (cellGet row (email_col.getD "")),
             pyStrip (cellGet row (name_col.getD "")),
             match subject_col with
             | some sc =>
               if sc ≠ "" ∧ f.cols.contains sc then some (pyStrip (cellGet row sc))
               else none
             | none => none⟩))
          (smtpDefaults env)

/-- The response of the `send` endpoint.  `uncaught` marks an exception
that no handler in the route catches, so it propagates to the user. -/
inductive SendResponse where
  | redirect (flash : String)
  | uncaught (exc : String)
  | report (results : List DispatchResult)
deriving DecidableEq

/-- The hardcoded fallback signature used when reading
`templates/_signature.html` fails. -/
def fallbackSignature : String :=
  "Coordinación de Matrícula\nCentro de Idiomas de la Universidad Nacional Mayor de San Marcos\nCorreo: personalcontratado31.flch@unmsm.edu.pe\nAv. Universitaria, Calle Germán Amézaga Nº 375. Ciudad Universitaria, Lima"

/-- `send_emails` from `src/app.py`, with its boundary effects made
explicit: `records` is `session['mapped_records'] or []`; the six form
fields arrive as raw strings (after `request.form.get` defaults);
`sigFile` is the content of the signature file, or `none` when reading
it raises; `connect` is `none` when the SMTP connect/login succeeds and
the stringified exception otherwise; `oracle` resolves the per-recipient
render/send outcomes.  The route checks the recipient list, parses the
form fields — `int(request.form.get('smtp_port', '587'))` is guarded by
no try block, so a non-numeric port raises out of the route — validates
credentials, loads the signature, connects, and runs the dispatch loop.
Credential persistence (`remember_credentials`) is modelled separately
by `write_env_values`. -/
def send_emails (records : List Rec) (default_subject : String)
    (smtp_email_f smtp_app_password_f _from_name_f _smtp_host_f smtp_port_f : String)
    (atts : List Attach) (sigFile : Option String) (connect : Option String)
    (oracle : Nat → Outcome) : SendResponse :=
  if records.isEmpty then
    SendResponse.redirect "No hay destinatarios. Vuelve a subir el archivo."
  else
    match pyInt smtp_port_f with
    | none => SendResponse.uncaught "ValueError: invalid literal for int() with base 10"
    | some _ =>
      if pyStrip smtp_email_f = "" ∨ pyStrip smtp_app_password_f = "" then
        SendResponse.redirect "Debes ingresar el correo remitente y la contraseña de aplicación."
      else
        match connect with
        | some exc => SendResponse.redirect ("No se pudo conectar a SMTP: " ++ exc)
        | none =>
          SendResponse.report
            (dispatchLoop
              (match sigFile with
               | some content => html_to_plain_text (pyStrip content)
               | none => fallbackSignature)
              default_subject atts oracle 0 records).1

/-- Restatement of the subject choice in the words of claim C7 as
amended: the recipient subject when it is present and non-empty, else
the default subject when non-empty, else the literal `Comunicado`. -/
def specSubjectChoice (subj : Option String) (default_subject : String) : String :=
  match subj with
  | some s =>
    if s = "" then (if default_subject = "" then "Comunicado" else default_subject) else s
  | none => if default_subject = "" then "Comunicado" else default_subject

/-- Claim C5 counterexample: `html_to_plain_text` leaves no line break
for the uppercase variant `<BR>` — the case-sensitive replacements miss
it and the generic tag regex then deletes it outright, so not every
variant of `<br>` produces a line break. -/
theorem html_to_plain_text_BR_cex :
    html_to_plain_text "A<BR>B" = "AB"
    ∧ ¬ '\n' ∈ (html_to_plain_text "A<BR>B").data := by decide

/-- Claim C5 as amended: the conversion is a total function by
construction and degrades malformed markup to stripped text; the exact
lowercase `<br>` variants and the paragraph closer `</p>` (any case,
optional whitespace before the bracket) produce line breaks, including
the two quoted examples, while other-case `<br>` variants such as
`<BR>` are stripped without producing a break. -/
theorem html_to_plain_text_linebreaks :
    html_to_plain_text "<p>Hi</p>" = "Hi"
    ∧ html_to_plain_text "A<br>B" = "A\nB"
    ∧ html_to_plain_text "A<br/>B" = "A\nB"
    ∧ html_to_plain_text "A<br />B" = "A\nB"
    ∧ html_to_plain_text "A</p>B" = "A\n\nB"
    ∧ html_to_plain_text "A</P  >B" = "A\n\nB"
    ∧ html_to_plain_text "A<BR>B" = "AB"
    ∧ html_to_plain_text "<x><<y>>Hi&amp;Bye</x>" = ">Hi&Bye" := by decide

/-- Claim C7 counterexample: a recipient whose subject field is present
but empty does not keep that empty subject — Python `or` treats the
empty string as falsy, so the default subject wins. -/
theorem chooseSubject_empty_present_cex :
    chooseSubject (some "") "Asunto" = "Asunto"
    ∧ ¬ chooseSubject (some "") "Asunto" = "" := by decide

/-- Claim C7 as amended: the subject used by the dispatch engine equals
the recipient's subject field when present and non-empty, else the
session default subject when non-empty, else the literal `Comunicado`. -/
theorem chooseSubject_eq_spec (subj : Option String) (default_subject : String) :
    chooseSubject subj default_subject = specSubjectChoice subj default_subject := by
  cases subj with
  | none =>
    simp only [chooseSubject, specSubjectChoice, Option.getD, pyOr]
    split_ifs <;> simp_all
  | some s =>
    simp only [chooseSubject, specSubjectChoice, Option.getD, pyOr]
    split_ifs <;> simp_all

/-- Claim C3: the `send` route parses `smtp_port` with a bare `int(...)`
outside any try block.  With a non-empty recipient list and a
non-numeric operator-supplied port the route raises `ValueError`
uncaught, before any user-visible message is produced. -/
theorem send_emails_port_uncaught :
    send_emails [⟨"a@b.c", "N", none⟩] "" "x@y.z" "pw" "" "" "abc" [] none none
        (fun _ => Outcome.ok "B")
      = SendResponse.uncaught "ValueError: invalid literal for int() with base 10" := by
  decide

/-- Claim C1: the dispatch loop yields exactly one result per input
record, in input order (the result list is the index-tagged input list
mapped through the single-recipient step, whatever the per-recipient
outcomes — so no per-recipient failure aborts the batch); a record whose
email strips to empty yields an error result with no SMTP traffic and no
sleep; and a render or send exception for a non-empty recipient yields
an error result carrying the stringified reason for that recipient. -/
theorem dispatch_batch_shape (signature_text default_subject : String)
    (atts : List Attach) (oracle : Nat → Outcome) (i : Nat) (recs : List Rec) :
    ((dispatchLoop signature_text default_subject atts oracle i recs).1 =
      (withIdx i recs).map
        (fun p => (dispatchStep signature_text default_subject atts p.2 (oracle p.1)).1))
    ∧ (∀ rec o, pyStrip rec.email = "" →
        dispatchStep signature_text default_subject atts rec o
          = (⟨"", "error", "Correo vacío"⟩, []))
    ∧ (∀ rec m, pyStrip rec.email ≠ "" →
        (dispatchStep signature_text default_subject atts rec (Outcome.renderFail m)).1
          = ⟨pyStrip rec.email, "error", m⟩)
    ∧ (∀ rec b m, pyStrip rec.email ≠ "" →
        (dispatchStep signature_text default_subject atts rec (Outcome.sendFail b m)).1
          = ⟨pyStrip rec.email, "error", m⟩) := by
  refine ⟨?_, ?_, ?_, ?_⟩
  · induction recs generalizing i with
    | nil => simp [dispatchLoop, withIdx]
    | cons r rs ih => simp [dispatchLoop, withIdx, ih]
  · intro rec o h
    simp [dispatchStep, h]
  · intro rec m h
    simp [dispatchStep, h]
  · intro rec b m h
    simp [dispatchStep, h]

/-- Witness for `dispatch_batch_shape` at a two-recipient batch whose
second email is blank. -/
theorem dispatch_batch_shape_witness :
    ((dispatchLoop "" "" [] (fun _ => Outcome.ok "B") 0
        [⟨"a@b.c", "N", none⟩, ⟨" ", "M", none⟩]).1 =
      (withIdx 0 [⟨"a@b.c", "N", none⟩, ⟨" ", "M", none⟩]).map
        (fun p => (dispatchStep "" "" [] p.2 ((fun _ => Outcome.ok "B") p.1)).1))
    ∧ dispatchStep "" "" [] ⟨" ", "M", none⟩ (Outcome.ok "B")
        = (⟨"", "error", "Correo vacío"⟩, [])
    ∧ (dispatchStep "" "" [] ⟨"a@b.c", "N", none⟩ (Outcome.renderFail "bad template")).1
        = ⟨pyStrip "a@b.c", "error", "bad template"⟩
    ∧ (dispatchStep "" "" [] ⟨"a@b.c", "N", none⟩ (Outcome.sendFail "B" "boom")).1
        = ⟨pyStrip "a@b.c", "error", "boom"⟩ := by
  have h := dispatch_batch_shape "" "" [] (fun _ => Outcome.ok "B") 0
    [⟨"a@b.c", "N", none⟩, ⟨" ", "M", none⟩]
  exact ⟨h.1, h.2.1 ⟨" ", "M", none⟩ (Outcome.ok "B") (by decide),
    h.2.2.1 ⟨"a@b.c", "N", none⟩ "bad template" (by decide),
    h.2.2.2 ⟨"a@b.c", "N", none⟩ "B" "boom" (by decide)⟩

/-- Claim C2 counterexample: a recipient whose send attempt fails gets
no inter-send delay — `time.sleep(0.5)` sits inside the try block after
the send, so the exception skips it — contradicting the claim that the
delay is performed after failed attempts too. -/
theorem dispatch_delay_cex :
    (dispatchStep "" "" [] ⟨"a@b.c", "N", none⟩ (Outcome.sendFail "B" "boom")).1.status
        = "error"
    ∧ (dispatchStep "" "" [] ⟨"a@b.c", "N", none⟩ (Outcome.sendFail "B" "boom")).2 ≠ []
    ∧ ¬ Event.sleep ∈ (dispatchStep "" "" [] ⟨"a@b.c", "N", none⟩
        (Outcome.sendFail "B" "boom")).2 := by decide

/-- Claim C2 as amended: the ≈0.5s inter-send delay runs only after a
send attempt that succeeds; it is skipped for recipients skipped for an
empty email, and also when the render or the send raises. -/
theorem dispatch_delay_after_success (signature_text default_subject : String)
    (atts : List Attach) (rec : Rec) (b m : String) (h : pyStrip rec.email ≠ "") :
    (dispatchStep signature_text default_subject atts rec (Outcome.ok b)).2
      = [Event.send ⟨pyStrip rec.email, chooseSubject rec.subject default_subject,
          mkBody b signature_text, msgAtts atts⟩, Event.sleep]
    ∧ ¬ Event.sleep ∈
        (dispatchStep signature_text default_subject atts rec (Outcome.sendFail b m)).2
    ∧ (dispatchStep signature_text default_subject atts rec (Outcome.renderFail m)).2 = []
    ∧ (∀ rec2 o, pyStrip rec2.email = "" →
        (dispatchStep signature_text default_subject atts rec2 o).2 = []) := by
  refine ⟨by simp [dispatchStep, h], by simp [dispatchStep, h], by simp [dispatchStep, h], ?_⟩
  intro rec2 o h2
  simp [dispatchStep, h2]

/-- Witness for `dispatch_delay_after_success` at a concrete recipient. -/
theorem dispatch_delay_after_success_witness :
    (dispatchStep "Sig" "DS" [] ⟨"a@b.c", "N", none⟩ (Outcome.ok "B")).2
      = [Event.send ⟨pyStrip "a@b.c", chooseSubject none "DS", mkBody "B" "Sig", msgAtts []⟩,
         Event.sleep]
    ∧ ¬ Event.sleep ∈ (dispatchStep "Sig" "DS" [] ⟨"a@b.c", "N", none⟩
        (Outcome.sendFail "B" "boom")).2
    ∧ (dispatchStep "Sig" "DS" [] ⟨"a@b.c", "N", none⟩ (Outcome.renderFail "boom")).2 = []
    ∧ (∀ rec2 o, pyStrip rec2.email = "" →
        (dispatchStep "Sig" "DS" [] rec2 o).2 = []) :=
  dispatch_delay_after_success "Sig" "DS" [] ⟨"a@b.c", "N", none⟩ "B" "boom" (by decide)

/-- Claim C6 counterexample: `map_columns` never consults the column set
stored at the Prepare step — it validates against the freshly re-read
file.  With stored columns `["a"]` but a re-read frame whose columns are
`correo, nombre`, mapping `correo`/`nombre` transitions to the confirm
view even though neither is in the previously detected column set. -/
theorem map_columns_stale_columns_cex :
    map_columns ⟨some "up.csv", ["a"], "T", "S"⟩ (some "correo") (some "nombre") none
        (ReadResult.ok ⟨["correo", "nombre"], []⟩) envEmpty
      = MapResponse.confirm [] (smtpDefaults envEmpty)
    ∧ ¬ "correo" ∈ (MapSession.mk (some "up.csv") ["a"] "T" "S").columns
    ∧ ¬ "nombre" ∈ (MapSession.mk (some "up.csv") ["a"] "T" "S").columns := by decide

/-- Claim C6 as amended: the transition to Mapped requires `email_col`
and `name_col` to be both non-empty and present in the columns of the
freshly re-read file (which equal the Prepare-step columns whenever the
file is unchanged); whenever either fails that test the controller
redirects to the index without creating `mapped_records`, and otherwise
the confirm view is produced. -/
theorem map_columns_validates_reread (sess : MapSession) (p : String)
    (email_col name_col subject_col : Option String) (f : Frame)
    (env : String → Option String) (hp : sess.upload_path = some p) :
    ((badCol email_col f.cols || badCol name_col f.cols) = true →
      map_columns sess email_col name_col subject_col (ReadResult.ok f) env
        = MapResponse.redirect "Selecciona correctamente las columnas de correo y nombre.")
    ∧ ((badCol email_col f.cols || badCol name_col f.cols) = false →
      ∃ records, map_columns sess email_col name_col subject_col (ReadResult.ok f) env
        = MapResponse.confirm records (smtpDefaults env)) := by
  constructor
  · intro h
    simp [map_columns, hp, h]
  · intro h
    exact ⟨f.rows.map (fun row =>
      ⟨pyStrip (cellGet row (email_col.getD "")),
       pyStrip (cellGet row (name_col.getD "")),
       match subject_col with
       | some sc =>
         if sc ≠ "" ∧ f.cols.contains sc then some (pyStrip (cellGet row sc)) else none
       | none => none⟩), by simp [map_columns, hp, h]⟩

/-- Witness for `map_columns_validates_reread`: an absent email column
redirects, and a valid pair of columns reaches the confirm view. -/
theorem map_columns_validates_reread_witness :
    map_columns ⟨some "u.csv", ["correo", "nombre"], "T", "S"⟩ none (some "nombre") none
        (ReadResult.ok ⟨["correo", "nombre"], []⟩) envEmpty
      = MapResponse.redirect "Selecciona correctamente las columnas de correo y nombre."
    ∧ ∃ records,
        map_columns ⟨some "u.csv", ["correo", "nombre"], "T", "S"⟩ (some "correo")
            (some "nombre") none (ReadResult.ok ⟨["correo", "nombre"], []⟩) envEmpty
          = MapResponse.confirm records (smtpDefaults envEmpty) :=
  ⟨(map_columns_validates_reread ⟨some "u.csv", ["correo", "nombre"], "T", "S"⟩ "u.csv"
      none (some "nombre") none ⟨["correo", "nombre"], []⟩ envEmpty rfl).1 (by decide),
   (map_columns_validates_reread ⟨some "u.csv", ["correo", "nombre"], "T", "S"⟩ "u.csv"
      (some "correo") (some "nombre") none ⟨["correo", "nombre"], []⟩ envEmpty rfl).2
     (by decide)⟩

/-- Claim C8: with `SMTP_APP_PASSWORD` unset in the environment the
confirm view's prefilled defaults carry the hardcoded literal app
password (and, with `SMTP_FROM_NAME` unset, the literal from-name), not
an empty value; and every confirm view produced by `map_columns` embeds
exactly these environment-derived defaults. -/
theorem smtp_defaults_hardcoded_password (env : String → Option String)
    (hp : env "SMTP_APP_PASSWORD" = none) (hf : env "SMTP_FROM_NAME" = none) :
    (smtpDefaults env).smtp_app_password = "dgjr jxdm dske dxos"
    ∧ (smtpDefaults env).from_name = "Centro de Idiomas"
    ∧ (smtpDefaults env).smtp_app_password ≠ ""
    ∧ ∀ sess ec nc sc read records defaults,
        map_columns sess ec nc sc read env = MapResponse.confirm records defaults →
        defaults = smtpDefaults env := by
  refine ⟨by simp [smtpDefaults, hp], by simp [smtpDefaults, hf],
    by simp [smtpDefaults, hp], ?_⟩
  intro sess ec nc sc read records defaults h
  unfold map_columns at h
  split at h
  · exact absurd h (by simp)
  · split at h
    · exact absurd h (by simp)
    · split at h
      · exact absurd h (by simp)
      · injection h with _ h2
        exact h2.symm

/-- Witness for `smtp_defaults_hardcoded_password` at the empty
environment and a concrete confirm response. -/
theorem smtp_defaults_hardcoded_password_witness :
    (smtpDefaults envEmpty).smtp_app_password = "dgjr jxdm dske dxos"
    ∧ (smtpDefaults envEmpty).from_name = "Centro de Idiomas"
    ∧ (smtpDefaults envEmpty).smtp_app_password ≠ ""
    ∧ ∀ sess ec nc sc read records defaults,
        map_columns sess ec nc sc read envEmpty = MapResponse.confirm records defaults →
        defaults = smtpDefaults envEmpty :=
  smtp_defaults_hardcoded_password envEmpty rfl rfl

/-- Claim C10: when a subject column is supplied but absent from the
re-read frame's columns, mapping still succeeds whenever the email and
name columns validate — the records are built with no subject field and
the response is the confirm view, not a redirect or message. -/
theorem map_columns_invalid_subject_col (sess : MapSession) (p : String)
    (email_col name_col : Option String) (sc : String) (f : Frame)
    (env : String → Option String) (hp : sess.upload_path = some p)
    (hgood : (badCol email_col f.cols || badCol name_col f.cols) = false)
    (hsc : ¬ sc ∈ f.cols) :
    map_columns sess email_col name_col (some sc) (ReadResult.ok f) env
      = MapResponse.confirm
          (f.rows.map (fun row =>
            ⟨pyStrip (cellGet row (email_col.getD "")),
             pyStrip (cellGet row (name_col.getD "")), none⟩))
          (smtpDefaults env) := by
  have hcf : f.cols.contains sc = false := by simpa using hsc
  simp only [map_columns, hp, hgood]
  simp [hcf]
  intro _ _ _
  exact hsc

/-- Witness for `map_columns_invalid_subject_col` on a one-row frame. -/
theorem map_columns_invalid_subject_col_witness :
    map_columns ⟨some "u.csv", ["correo", "nombre"], "T", "S"⟩ (some "correo")
        (some "nombre") (some "asunto")
        (ReadResult.ok ⟨["correo", "nombre"], [[("correo", " a@b.c "), ("nombre", "N")]]⟩)
        envEmpty
      = MapResponse.confirm [⟨"a@b.c", "N", none⟩] (smtpDefaults envEmpty) := by
  have h := map_columns_invalid_subject_col
    ⟨some "u.csv", ["correo", "nombre"], "T", "S"⟩ "u.csv" (some "correo") (some "nombre")
    "asunto" ⟨["correo", "nombre"], [[("correo", " a@b.c "), ("nombre", "N")]]⟩ envEmpty
    rfl (by decide) (by decide)
  exact h.trans (by decide)

/-- Membership in an `assocUpdate` result comes from the original list
or is the assigned pair. -/
theorem assocUpdate_mem {m : List (String × String)} {k v : String} {x : String × String}
    (h : x ∈ assocUpdate m k v) : x ∈ m ∨ x = (k, v) := by
  unfold assocUpdate at h
  split at h
  · rcases List.mem_map.mp h with ⟨p, hp, hpx⟩
    by_cases hk : p.1 = k
    · right
      rw [← hpx]
      simp [hk]
    · left
      rw [← hpx]
      simpa [hk] using hp
  · rcases List.mem_append.mp h with h1 | h1
    · exact Or.inl h1
    · right
      simpa using h1

/-- The assigned pair is always present after an `assocUpdate`. -/
theorem assocUpdate_self (m : List (String × String)) (k v : String) :
    (k, v) ∈ assocUpdate m k v := by
  unfold assocUpdate
  split
  next hany =>
    rcases List.any_eq_true.mp hany with ⟨p, hp, hpk⟩
    have hk : p.1 = k := by simpa using hpk
    exact List.mem_map.mpr ⟨p, hp, by simp [hk]⟩
  next => exact List.mem_append.mpr (Or.inr (by simp))

/-- An existing entry survives an `assocUpdate` whose assignment either
targets a different key or rewrites the same value. -/
theorem assocUpdate_keep {m : List (String × String)} {k x k2 v : String}
    (h : (k, x) ∈ m) (hk : k2 = k → v = x) : (k, x) ∈ assocUpdate m k2 v := by
  unfold assocUpdate
  split
  · refine List.mem_map.mpr ⟨(k, x), h, ?_⟩
    by_cases he : k = k2
    · simp [he, hk he.symm]
    · simp [he]
  · exact List.mem_append.mpr (Or.inl h)

/-- Every entry of `buildMapping` is inherited or is an uncommented
`=`-line of the input. -/
theorem buildMapping_mem : ∀ (lines : List String) (m : List (String × String))
    (x : String × String), x ∈ buildMapping m lines →
    x ∈ m ∨ (x.2 ∈ lines ∧ isKVLine x.2 = true) := by
  intro lines
  induction lines with
  | nil =>
    intro m x h
    exact Or.inl (by simpa [buildMapping] using h)
  | cons line rest ih =>
    intro m x h
    simp only [buildMapping] at h
    split at h
    next hkv =>
      rcases ih _ _ h with hin | ⟨h2, h3⟩
      · rcases assocUpdate_mem hin with h4 | h4
        · exact Or.inl h4
        · right
          rw [h4]
          exact ⟨List.mem_cons_self _ _, hkv⟩
      · exact Or.inr ⟨List.mem_cons_of_mem _ h2, h3⟩
    next =>
      rcases ih _ _ h with hin | ⟨h2, h3⟩
      · exact Or.inl hin
      · exact Or.inr ⟨List.mem_cons_of_mem _ h2, h3⟩

/-- An entry survives `buildMapping` when every key-value input line
with its key is the entry's own line. -/
theorem buildMapping_keep : ∀ (lines : List String) (m : List (String × String))
    (k x : String), (k, x) ∈ m →
    (∀ l ∈ lines, isKVLine l = true → lineKey l = k → l = x) →
    (k, x) ∈ buildMapping m lines := by
  intro lines
  induction lines with
  | nil =>
    intro m k x h _
    simpa [buildMapping] using h
  | cons line rest ih =>
    intro m k x h hcond
    simp only [buildMapping]
    split
    next hkv =>
      refine ih _ _ _ (assocUpdate_keep h ?_) ?_
      · intro he
        rw [hcond line (List.mem_cons_self _ _) hkv he]
      · intro l hl h1 h2
        exact hcond l (List.mem_cons_of_mem _ hl) h1 h2
    next =>
      exact ih _ _ _ h (fun l hl h1 h2 => hcond l (List.mem_cons_of_mem _ hl) h1 h2)

/-- A key-value line whose key no other key-value line carries ends up
in the mapping, keyed by its stripped key. -/
theorem buildMapping_insert : ∀ (lines : List String) (m : List (String × String))
    (line : String), line ∈ lines → isKVLine line = true →
    (∀ l2 ∈ lines, isKVLine l2 = true → lineKey l2 = lineKey line → l2 = line) →
    (lineKey line, line) ∈ buildMapping m lines := by
  intro lines
  induction lines with
  | nil =>
    intro m line h
    exact absurd h (List.not_mem_nil _)
  | cons l rest ih =>
    intro m line hmem hkv huniq
    rcases List.mem_cons.mp hmem with heq | hrest
    · subst heq
      simp only [buildMapping, hkv, if_true]
      exact buildMapping_keep _ _ _ _ (assocUpdate_self _ _ _)
        (fun l2 h2 h3 h4 => huniq l2 (List.mem_cons_of_mem _ h2) h3 h4)
    · simp only [buildMapping]
      split
      · exact ih _ _ hrest hkv (fun l2 h2 => huniq l2 (List.mem_cons_of_mem _ h2))
      · exact ih _ _ hrest hkv (fun l2 h2 => huniq l2 (List.mem_cons_of_mem _ h2))

/-- Every entry of `applyUpdates` is inherited or is a rendered update. -/
theorem applyUpdates_mem : ∀ (updates : List (String × String))
    (m : List (String × String)) (x : String × String), x ∈ applyUpdates m updates →
    x ∈ m ∨ ∃ kv ∈ updates, x = (kv.1, kvRender kv.1 kv.2) := by
  intro updates
  induction updates with
  | nil =>
    intro m x h
    exact Or.inl (by simpa [applyUpdates] using h)
  | cons kv rest ih =>
    intro m x h
    simp only [applyUpdates] at h
    rcases ih _ _ h with hin | ⟨kv2, h2, h3⟩
    · rcases assocUpdate_mem hin with h4 | h4
      · exact Or.inl h4
      · exact Or.inr ⟨kv, List.mem_cons_self _ _, h4⟩
    · exact Or.inr ⟨kv2, List.mem_cons_of_mem _ h2, h3⟩

/-- An entry survives `applyUpdates` when every update with its key
renders back the entry's own value. -/
theorem applyUpdates_keep : ∀ (updates : List (String × String))
    (m : List (String × String)) (k x : String), (k, x) ∈ m →
    (∀ kv ∈ updates, kv.1 = k → kvRender kv.1 kv.2 = x) →
    (k, x) ∈ applyUpdates m updates := by
  intro updates
  induction updates with
  | nil =>
    intro m k x h _
    simpa [applyUpdates] using h
  | cons kv rest ih =>
    intro m k x h hcond
    simp only [applyUpdates]
    refine ih _ _ _ (assocUpdate_keep h ?_) ?_
    · intro he
      exact hcond kv (List.mem_cons_self _ _) he
    · intro kv2 h2 h3
      exact hcond kv2 (List.mem_cons_of_mem _ h2) h3

/-- An update whose key no other update carries ends up in the mapping
as its rendered `k=sanitised-v` line. -/
theorem applyUpdates_insert : ∀ (updates : List (String × String))
    (m : List (String × String)) (kv : String × String), kv ∈ updates →
    (∀ kv2 ∈ updates, kv2.1 = kv.1 → kv2 = kv) →
    (kv.1, kvRender kv.1 kv.2) ∈ applyUpdates m updates := by
  intro updates
  induction updates with
  | nil =>
    intro m kv h
    exact absurd h (List.not_mem_nil _)
  | cons u rest ih =>
    intro m kv hmem huniq
    rcases List.mem_cons.mp hmem with heq | hrest
    · subst heq
      simp only [applyUpdates]
      exact applyUpdates_keep _ _ _ _ (assocUpdate_self _ _ _)
        (fun kv2 h2 h3 => by rw [huniq kv2 (List.mem_cons_of_mem _ h2) h3])
    · simp only [applyUpdates]
      exact ih _ kv hrest (fun kv2 h2 => huniq kv2 (List.mem_cons_of_mem _ h2))

/-- Splitting a character list at line terminators yields lines free of
line-terminator characters, by strong induction on the list length. -/
theorem splitlinesGo_chars : ∀ (n : Nat) (cs : List Char), cs.length ≤ n →
    ∀ (acc : List Char), (∀ c ∈ acc, c ≠ '\n' ∧ c ≠ '\x0d') →
    ∀ l ∈ splitlinesGo acc cs, ∀ c ∈ l, c ≠ '\n' ∧ c ≠ '\x0d' := by
  intro n
  induction n with
  | zero =>
    intro cs hlen acc hacc l hl c hc
    have hnil : cs = [] := List.eq_nil_of_length_eq_zero (Nat.le_zero.mp hlen)
    subst hnil
    simp only [splitlinesGo] at hl
    split at hl
    · exact absurd hl (List.not_mem_nil _)
    · rcases List.mem_singleton.mp hl with rfl
      exact hacc c (List.mem_reverse.mp hc)
  | succ n ih =>
    intro cs hlen acc hacc l hl
    cases cs with
    | nil =>
      simp only [splitlinesGo] at hl
      split at hl
      · exact absurd hl (List.not_mem_nil _)
      · rcases List.mem_singleton.mp hl with rfl
        intro c hc
        exact hacc c (List.mem_reverse.mp hc)
    | cons ch rest =>
      have haccrev : ∀ c ∈ acc.reverse, c ≠ '\n' ∧ c ≠ '\x0d' :=
        fun c hc => hacc c (List.mem_reverse.mp hc)
      cases rest with
      | nil =>
        by_cases hr : ch = '\x0d'
        · subst hr
          simp only [splitlinesGo, if_pos rfl] at hl
          rcases List.mem_cons.mp hl with rfl | h2
          · exact haccrev
          · simp [splitlinesGo] at h2
        · by_cases hn : ch = '\n'
          · subst hn
            simp [splitlinesGo] at hl
            subst hl
            exact haccrev
          · simp only [splitlinesGo, if_neg hr, if_neg hn] at hl
            refine ih [] (by simp) (ch :: acc) ?_ l hl
            intro c hc
            rcases List.mem_cons.mp hc with rfl | h2
            · exact ⟨hn, hr⟩
            · exact hacc c h2
      | cons d rest2 =>
        simp only [List.length_cons] at hlen
        by_cases hr : ch = '\x0d'
        · subst hr
          by_cases hd : d = '\n'
          · subst hd
            simp only [splitlinesGo, if_pos rfl] at hl
            rcases List.mem_cons.mp hl with rfl | h2
            · exact haccrev
            · exact ih rest2 (by omega) [] (by simp) l h2
          · simp only [splitlinesGo, if_pos rfl, if_neg hd] at hl
            rcases List.mem_cons.mp hl with rfl | h2
            · exact haccrev
            · exact ih (d :: rest2) (by simp only [List.length_cons]; omega) [] (by simp) l h2
        · by_cases hn : ch = '\n'
          · subst hn
            simp only [splitlinesGo, if_neg hr, if_pos rfl] at hl
            rcases List.mem_cons.mp hl with rfl | h2
            · exact haccrev
            · exact ih (d :: rest2) (by simp only [List.length_cons]; omega) [] (by simp) l h2
          · simp only [splitlinesGo, if_neg hr, if_neg hn] at hl
            refine ih (d :: rest2) (by simp only [List.length_cons]; omega) (ch :: acc) ?_ l hl
            intro c hc
            rcases List.mem_cons.mp hc with rfl | h2
            · exact ⟨hn, hr⟩
            · exact hacc c h2

/-- Lines produced by `pySplitlines` contain no CR or LF character. -/
theorem pySplitlines_no_newline (s : String) :
    ∀ line ∈ pySplitlines s, hasChar line '\n' = false ∧ hasChar line '\x0d' = false := by
  intro line hline
  rcases List.mem_map.mp hline with ⟨l, hl, rfl⟩
  have hchars := splitlinesGo_chars s.data.length s.data (Nat.le_refl _) [] (by simp) l hl
  constructor <;>
  · simp only [hasChar]
    rw [List.any_eq_false]
    intro x hx
    have := hchars x hx
    simp_all

/-- The value sanitisation removes every CR and LF character. -/
theorem sanitize_no_newline (v : String) :
    hasChar (sanitizeValue v) '\n' = false ∧ hasChar (sanitizeValue v) '\x0d' = false := by
  constructor <;>
  · simp only [hasChar, sanitizeValue]
    rw [List.any_eq_false]
    intro x hx
    have := (List.mem_filter.mp hx).2
    simp_all

/-- Claim C4 counterexample: a rewrite does not preserve comment lines
— only uncommented `=`-lines enter the mapping whose values are written
back, so the `#`-prefixed line vanishes from the rewritten file. -/
theorem env_rewrite_drops_comments_cex :
    write_env_values (some "# keep=me\nA=1") [("B", "2")] = ["A=1", "B=2"]
    ∧ ¬ "# keep=me" ∈ write_env_values (some "# keep=me\nA=1") [("B", "2")] := by decide

/-- Claim C4 as amended: a rewrite keeps verbatim every uncommented
`KEY=value` line whose key is carried by no other key-value line and by
no written key, and places a `k=sanitised-v` line for every written key
that is unique among the updates; comment lines and other lines without
`=` are dropped, not preserved. -/
theorem env_rewrite_preserves_kv (existing : String) (updates : List (String × String))
    (line : String) (kv : String × String)
    (hline : line ∈ pySplitlines existing) (hkv : isKVLine line = true)
    (huniq : ∀ l2 ∈ pySplitlines existing, isKVLine l2 = true →
      lineKey l2 = lineKey line → l2 = line)
    (hdisj : ∀ u ∈ updates, u.1 ≠ lineKey line)
    (hu : kv ∈ updates)
    (huu : ∀ u ∈ updates, u.1 = kv.1 → u = kv) :
    line ∈ write_env_values (some existing) updates
    ∧ kvRender kv.1 kv.2 ∈ write_env_values (some existing) updates := by
  constructor
  · have h1 := buildMapping_insert (pySplitlines existing) [] line hline hkv huniq
    have h2 := applyUpdates_keep updates _ (lineKey line) line h1
      (fun u hu2 he => absurd he (hdisj u hu2))
    exact List.mem_map.mpr ⟨_, h2, rfl⟩
  · have h1 := applyUpdates_insert updates
      (buildMapping [] (pySplitlines existing)) kv hu huu
    exact List.mem_map.mpr ⟨_, h1, rfl⟩

/-- Witness for `env_rewrite_preserves_kv` on a two-line file and a
disjoint single-key write. -/
theorem env_rewrite_preserves_kv_witness :
    "A=1" ∈ write_env_values (some "A=1\nB=2") [("C", "3")]
    ∧ kvRender "C" "3" ∈ write_env_values (some "A=1\nB=2") [("C", "3")] :=
  env_rewrite_preserves_kv "A=1\nB=2" [("C", "3")] "A=1" ("C", "3")
    (by decide) (by decide) (by decide) (by decide) (by decide) (by decide)

/-- Claim C9: every persisted credential value first loses every CR and
LF character, and — whenever the written keys themselves are free of CR
and LF, as the five constant keys the route writes are — every line of
the rewritten file contains an `=` and no CR or LF, so the file keeps
exactly one `key=value` pair per line whatever the operator supplied. -/
theorem env_write_single_line_invariant (existing : Option String)
    (updates : List (String × String))
    (hkeys : ∀ u ∈ updates, hasChar u.1 '\n' = false ∧ hasChar u.1 '\x0d' = false) :
    (∀ v : String, hasChar (sanitizeValue v) '\n' = false
      ∧ hasChar (sanitizeValue v) '\x0d' = false)
    ∧ ∀ line ∈ write_env_values existing updates,
        hasChar line '=' = true ∧ hasChar line '\n' = false ∧ hasChar line '\x0d' = false := by
  refine ⟨sanitize_no_newline, ?_⟩
  intro line hline
  unfold write_env_values at hline
  rcases List.mem_map.mp hline with ⟨x, hx, rfl⟩
  rcases applyUpdates_mem _ _ _ hx with hb | ⟨kv, hkv2, hxe⟩
  · rcases buildMapping_mem _ _ _ hb with h0 | ⟨hl2, hkvl⟩
    · exact absurd h0 (List.not_mem_nil _)
    · refine ⟨((Bool.and_eq_true _ _).mp hkvl).1, ?_⟩
      cases existing with
      | none => exact absurd hl2 (List.not_mem_nil _)
      | some s => exact pySplitlines_no_newline s x.2 hl2
  · rw [hxe]
    refine ⟨?_, ?_, ?_⟩
    · simp [hasChar, kvRender, List.any_append]
    · have hk := (hkeys kv hkv2).1
      have hs := (sanitize_no_newline kv.2).1
      simp only [hasChar, kvRender] at *
      simp [List.any_append, hk, hs]
    · have hk := (hkeys kv hkv2).2
      have hs := (sanitize_no_newline kv.2).2
      simp only [hasChar, kvRender] at *
      simp [List.any_append, hk, hs]

/-- Witness for `env_write_single_line_invariant`: a value carrying a
raw newline is flattened and the written line stays a single pair. -/
theorem env_write_single_line_invariant_witness :
    (hasChar (sanitizeValue "v\nx") '\n' = false
      ∧ hasChar (sanitizeValue "v\nx") '\x0d' = false)
    ∧ (hasChar "K=vx" '=' = true ∧ hasChar "K=vx" '\n' = false
      ∧ hasChar "K=vx" '\x0d' = false) := by
  have h := env_write_single_line_invariant (some "A=1") [("K", "v\nx")] (by decide)
  exact ⟨h.1 "v\nx", h.2 "K=vx" (by decide)⟩
